import Mathlib

/-!
Verification development for the altostratus 3D point-cloud renderer.

The Rust source is shallowly embedded in Lean: `f32` arithmetic is idealized
as real-number arithmetic (`ℝ`), with `Real.sqrt` for `f32::sqrt`,
`Real.tan`/`Real.sin`/`Real.cos` for the trigonometric functions, and
`⌊_⌋₊` (natural floor) for the truncating `as usize` / `as u32` casts on
non-negative values.  Stateful methods become state-passing functions, and
fallible methods return `Except AltostratusError _` or `Option _`,
mirroring the source's `Result` and `Option` types.
-/

open Real

set_option maxHeartbeats 1000000

/-- Truncating cast from a non-negative real to a natural number, modelling
Rust's `as usize` / `as u32` on a non-negative float (negative values
saturate to zero, as Rust's float-to-unsigned cast does). -/
noncomputable def ratToUsize (x : ℝ) : ℕ := ⌊x⌋₊

/-- 3-component vector of reals, modelling `glam::Vec3`. -/
structure Vec3 where
  x : ℝ
  y : ℝ
  z : ℝ

/-- 4-component vector of reals, modelling `glam::Vec4`. -/
structure Vec4 where
  x : ℝ
  y : ℝ
  z : ℝ
  w : ℝ

def Vec3.zero : Vec3 := ⟨0, 0, 0⟩

def Vec3.unitX : Vec3 := ⟨1, 0, 0⟩

def Vec3.unitY : Vec3 := ⟨0, 1, 0⟩

def Vec3.unitZ : Vec3 := ⟨0, 0, 1⟩

def Vec3.add (a b : Vec3) : Vec3 := ⟨a.x + b.x, a.y + b.y, a.z + b.z⟩

def Vec3.sub (a b : Vec3) : Vec3 := ⟨a.x - b.x, a.y - b.y, a.z - b.z⟩

def Vec3.smul (a : Vec3) (c : ℝ) : Vec3 := ⟨a.x * c, a.y * c, a.z * c⟩

def Vec3.dot (a b : Vec3) : ℝ := a.x * b.x + a.y * b.y + a.z * b.z

def Vec3.cross (a b : Vec3) : Vec3 :=
  ⟨a.y * b.z - a.z * b.y, a.z * b.x - a.x * b.z, a.x * b.y - a.y * b.x⟩

/-- Vector length, modelling `glam::Vec3::length` (Euclidean norm). -/
noncomputable def Vec3.length (a : Vec3) : ℝ := Real.sqrt (a.dot a)

/-- Vector normalization, modelling `glam::Vec3::normalize` (the division by
a zero length is idealized as yielding the zero vector; glam would produce
non-finite components, which the idealization cannot represent). -/
noncomputable def Vec3.normalize (a : Vec3) : Vec3 :=
  ⟨a.x / a.length, a.y / a.length, a.z / a.length⟩

/-- Linear interpolation, modelling `glam::Vec3::lerp`. -/
def Vec3.lerp (a b : Vec3) (t : ℝ) : Vec3 :=
  a.add ((b.sub a).smul t)

/-- Column-major 4x4 matrix, modelling `glam::Mat4` (`from_cols`). -/
structure Mat4 where
  col0 : Vec4
  col1 : Vec4
  col2 : Vec4
  col3 : Vec4

def Vec4.add (a b : Vec4) : Vec4 := ⟨a.x + b.x, a.y + b.y, a.z + b.z, a.w + b.w⟩

def Vec4.smul (a : Vec4) (c : ℝ) : Vec4 := ⟨a.x * c, a.y * c, a.z * c, a.w * c⟩

/-- Matrix-vector product, modelling `glam`'s `Mat4 * Vec4`. -/
def Mat4.mulVec4 (m : Mat4) (v : Vec4) : Vec4 :=
  (((m.col0.smul v.x).add (m.col1.smul v.y)).add (m.col2.smul v.z)).add
    (m.col3.smul v.w)

/-- Matrix product, modelling `glam`'s `Mat4 * Mat4` (column-wise). -/
def Mat4.mul (a b : Mat4) : Mat4 :=
  ⟨a.mulVec4 b.col0, a.mulVec4 b.col1, a.mulVec4 b.col2, a.mulVec4 b.col3⟩

/-- Error type, modelling `AltostratusError` (payload strings dropped). -/
inductive AltostratusError where
  | emptyPointCloud
  | invalidParameter
  | renderError
deriving DecidableEq

/-- Camera state, modelling `camera::Camera` (the `aspect_ratio` field is
named `aspect` here). -/
structure Camera where
  pos : Vec3
  target : Vec3
  up : Vec3
  fov : ℝ
  aspect : ℝ
  near : ℝ
  far : ℝ

/-- Modelling `Camera::new`: position `(0,0,5)`, target origin, up `+Y`,
fov `π/4`, aspect `1`, near `0.1`, far `100`. -/
noncomputable def Camera.new : Camera :=
  ⟨⟨0, 0, 5⟩, Vec3.zero, Vec3.unitY, Real.pi / 4, 1, 1 / 10, 100⟩

/-- Modelling `Camera::look_at`. -/
noncomputable def Camera.look_at (p target : Vec3) : Camera :=
  ⟨p, target, Vec3.unitY, Real.pi / 4, 1, 1 / 10, 100⟩

/-- Modelling `Camera::set_aspect_ratio` (fails when the ratio is not
positive). -/
noncomputable def Camera.set_aspect (c : Camera) (r : ℝ) :
    Except AltostratusError Camera :=
  if r ≤ 0 then .error .invalidParameter
  else .ok { c with aspect := r }

/-- Modelling `Camera::distance_to_target`. -/
noncomputable def Camera.distance_to_target (c : Camera) : ℝ :=
  (c.target.sub c.pos).length

/-- Modelling `Camera::zoom`: fails on a non-positive factor, moves the
camera to distance `distance / factor` from the target along the existing
direction, and fails instead when that new distance would drop below
`0.001`. -/
noncomputable def Camera.zoom (c : Camera) (factor : ℝ) :
    Except AltostratusError Camera :=
  if factor ≤ 0 then .error .invalidParameter
  else
    let direction := c.target.sub c.pos
    let distance := direction.length
    let new_distance := distance / factor
    if new_distance < 1 / 1000 then .error .invalidParameter
    else
      let new_direction := direction.normalize.smul new_distance
      .ok { c with pos := c.target.sub new_direction }

/-- Modelling `Camera::frame_bounding_box`: fails when the largest box
extent is not positive; otherwise re-targets the box center and backs the
camera off along the previous view direction by
`(extent/2) / tan(fov/2) + 0.1 * extent`. -/
noncomputable def Camera.frame_bounding_box (c : Camera) (lo hi : Vec3) :
    Except AltostratusError Camera :=
  let center := (lo.add hi).smul (1 / 2)
  let size := hi.sub lo
  let max_extent := max (max size.x size.y) size.z
  if max_extent ≤ 0 then .error .invalidParameter
  else
    let half_fov := c.fov * (1 / 2)
    let distance := (max_extent * (1 / 2)) / Real.tan half_fov
    let direction := (c.pos.sub c.target).normalize
    .ok { c with target := center,
                 pos := center.add (direction.smul (distance + max_extent * (1 / 10))) }

/-- Modelling `glam::Mat4::look_at_rh`. -/
noncomputable def Mat4.look_at_rh (eye center up : Vec3) : Mat4 :=
  let f := (center.sub eye).normalize
  let s := (f.cross up).normalize
  let u := s.cross f
  ⟨⟨s.x, u.x, -f.x, 0⟩,
   ⟨s.y, u.y, -f.y, 0⟩,
   ⟨s.z, u.z, -f.z, 0⟩,
   ⟨-(eye.dot s), -(eye.dot u), eye.dot f, 1⟩⟩

/-- Modelling `glam::Mat4::perspective_rh`. -/
noncomputable def Mat4.perspective_rh (fov_y aspect near far : ℝ) : Mat4 :=
  let h := Real.cos (fov_y * (1 / 2)) / Real.sin (fov_y * (1 / 2))
  let w := h / aspect
  let r := far / (near - far)
  ⟨⟨w, 0, 0, 0⟩,
   ⟨0, h, 0, 0⟩,
   ⟨0, 0, r, -1⟩,
   ⟨0, 0, r * near, 0⟩⟩

/-- Modelling `Camera::view_matrix`. -/
noncomputable def Camera.view_matrix (c : Camera) : Mat4 :=
  Mat4.look_at_rh c.pos c.target c.up

/-- Modelling `Camera::projection_matrix`. -/
noncomputable def Camera.projection_matrix (c : Camera) : Mat4 :=
  Mat4.perspective_rh c.fov c.aspect c.near c.far

/-- Modelling `Camera::view_projection_matrix` (projection times view). -/
noncomputable def Camera.view_projection_matrix (c : Camera) : Mat4 :=
  c.projection_matrix.mul c.view_matrix

/-- RGB color with 8-bit channels, modelling `Color` (channels as naturals;
all source call sites stay within 0..255). -/
structure Color where
  r : ℕ
  g : ℕ
  b : ℕ
deriving DecidableEq

def Color.red : Color := ⟨255, 0, 0⟩

def Color.green : Color := ⟨0, 255, 0⟩

def Color.blue : Color := ⟨0, 0, 255⟩

def Color.white : Color := ⟨255, 255, 255⟩

def Color.black : Color := ⟨0, 0, 0⟩

/-- Colored 3D point, modelling `lib.rs`'s `Point3D`. -/
structure Point3D where
  position : Vec3
  color : Color

/-- Point-cloud container, modelling `PointCloud`. -/
structure PointCloud where
  points : List Point3D
  default_color : Color

def PointCloud.new : PointCloud := ⟨[], Color.white⟩

def PointCloud.add_point (c : PointCloud) (p : Point3D) : PointCloud :=
  { c with points := c.points ++ [p] }

def PointCloud.add_point_with_color (c : PointCloud) (pos : Vec3)
    (col : Color) : PointCloud :=
  c.add_point ⟨pos, col⟩

def PointCloud.is_empty (c : PointCloud) : Bool := c.points.isEmpty

/-- 2D screen coordinate with depth, modelling `ScreenPoint`. -/
structure ScreenPoint where
  x : ℝ
  y : ℝ
  depth : ℝ

/-- Modelling `ScreenPoint::to_pixel_coords`: clamp each float coordinate
into `[0, dim-1]` and truncate to an unsigned integer. -/
noncomputable def ScreenPoint.to_pixel_coords (sp : ScreenPoint)
    (width height : ℕ) : ℕ × ℕ :=
  (ratToUsize ((max (min sp.x ((width : ℝ) - 1)) 0)),
   ratToUsize ((max (min sp.y ((height : ℝ) - 1)) 0)))

/-- Projector state, modelling `Projector` (viewport dimensions). -/
structure Projector where
  viewport_width : ℕ
  viewport_height : ℕ

/-- Modelling `Projector::project_point`: transform through the camera's
view-projection matrix, reject when the homogeneous `w` is not positive,
perspective-divide to NDC, reject outside the NDC cube, and map to screen
coordinates with the Y axis flipped. -/
noncomputable def Projector.project_point (p : Projector) (world_pos : Vec3)
    (camera : Camera) : Option ScreenPoint :=
  let view_proj := camera.view_projection_matrix
  let world_pos_4d : Vec4 := ⟨world_pos.x, world_pos.y, world_pos.z, 1⟩
  let clip_pos := view_proj.mulVec4 world_pos_4d
  if clip_pos.w ≤ 0 then none
  else
    let ndc_x := clip_pos.x / clip_pos.w
    let ndc_y := clip_pos.y / clip_pos.w
    let ndc_z := clip_pos.z / clip_pos.w
    if ndc_x < -1 ∨ ndc_x > 1 ∨ ndc_y < -1 ∨ ndc_y > 1 ∨ ndc_z < 0 ∨ ndc_z > 1
    then none
    else
      let screen_x := (ndc_x + 1) * (1 / 2) * (p.viewport_width : ℝ)
      let screen_y := (1 - ndc_y) * (1 / 2) * (p.viewport_height : ℝ)
      some ⟨screen_x, screen_y, ndc_z⟩

/-- Modelling `Projector::project_point_cloud`: keep the visible points,
in order, paired with their screen positions. -/
noncomputable def Projector.project_point_cloud (p : Projector)
    (points : PointCloud) (camera : Camera) : List (Point3D × ScreenPoint) :=
  points.points.filterMap fun pt =>
    (p.project_point pt.position camera).map fun screen_pos => (pt, screen_pos)

/-- Depth-buffer state, modelling `DepthBuffer` (row-major cell list). -/
structure DepthBuffer where
  depths : List ℝ
  width : ℕ
  height : ℕ

/-- Modelling `DepthBuffer::new` (the zero-dimension failure is handled at
the call sites of interest; construction fills every cell with `1.0`). -/
def DepthBuffer.new (width height : ℕ) : DepthBuffer :=
  ⟨List.replicate (width * height) 1, width, height⟩

/-- Modelling `DepthBuffer::clear`. -/
def DepthBuffer.clear (b : DepthBuffer) : DepthBuffer :=
  { b with depths := List.replicate b.depths.length 1 }

/-- Modelling `DepthBuffer::test_and_update` as a state-passing function:
returns the boolean result together with the possibly-updated buffer. -/
noncomputable def DepthBuffer.test_and_update (b : DepthBuffer) (x y : ℕ)
    (depth : ℝ) : Bool × DepthBuffer :=
  if x ≥ b.width ∨ y ≥ b.height then (false, b)
  else
    let index := y * b.width + x
    if depth < b.depths.getD index 0 then
      (true, { b with depths := b.depths.set index depth })
    else (false, b)

/-- Axes configuration, modelling `AxesConfig`. -/
structure AxesConfig where
  length : ℝ
  x_color : Color
  y_color : Color
  z_color : Color
  tick_spacing : ℝ
  tick_length : ℝ
  arrow_size : ℝ
  show_ticks : Bool
  show_arrows : Bool
  show_labels : Bool
  points_per_unit : ℝ

/-- Modelling `AxesConfig::new` (the default configuration). -/
noncomputable def AxesConfig.new : AxesConfig :=
  ⟨5, Color.red, Color.green, Color.blue, 1, 1 / 10, 1 / 5, true, true, true, 10⟩

/-- Modelling `Axes::get_perpendicular_dirs`. -/
noncomputable def Axes.get_perpendicular_dirs (direction : Vec3) : Vec3 × Vec3 :=
  let up := if |direction.dot Vec3.unitY| < 9 / 10 then Vec3.unitY else Vec3.unitX
  let perp1 := (direction.cross up).normalize
  let perp2 := (direction.cross perp1).normalize
  (perp1, perp2)

/-- Modelling `Axes::add_axis_line`: `floor(length * points_per_unit) + 1`
points along the axis (note: no lower bound is applied here, unlike
`add_line` and `add_tick_mark`). -/
noncomputable def Axes.add_axis_line (cfg : AxesConfig) (cloud : PointCloud)
    (direction : Vec3) (color : Color) : PointCloud :=
  let num_points := ratToUsize (cfg.length * cfg.points_per_unit)
  (List.range (num_points + 1)).foldl (fun (cl : PointCloud) (i : ℕ) =>
    let t := (i : ℝ) / (num_points : ℝ)
    cl.add_point_with_color (direction.smul (t * cfg.length)) color) cloud

/-- Modelling `Axes::add_tick_mark` (at least 3 sampling steps, hence at
least 4 emitted points). -/
noncomputable def Axes.add_tick_mark (cfg : AxesConfig) (cloud : PointCloud)
    (center direction : Vec3) (color : Color) : PointCloud :=
  let half_length := cfg.tick_length * (1 / 2)
  let num_points := max (ratToUsize (cfg.tick_length * cfg.points_per_unit * 2)) 3
  (List.range (num_points + 1)).foldl (fun (cl : PointCloud) (i : ℕ) =>
    let t := ((i : ℝ) / (num_points : ℝ)) * 2 - 1
    cl.add_point_with_color (center.add (direction.smul (t * half_length))) color)
    cloud

/-- Modelling `Axes::add_axis_ticks`. -/
noncomputable def Axes.add_axis_ticks (cfg : AxesConfig) (cloud : PointCloud)
    (direction : Vec3) (color : Color) : PointCloud :=
  if cfg.tick_spacing ≤ 0 then cloud
  else
    let num_ticks := ratToUsize (cfg.length / cfg.tick_spacing)
    let perps := Axes.get_perpendicular_dirs direction
    (List.range num_ticks).foldl (fun (cl : PointCloud) (i : ℕ) =>
      let position := direction.smul (((i + 1 : ℕ) : ℝ) * cfg.tick_spacing)
      let cl := Axes.add_tick_mark cfg cl position perps.1 color
      Axes.add_tick_mark cfg cl position perps.2 color) cloud

/-- Modelling `Axes::add_line`: sampling count `max(floor(dist * ppu * 2), 2)`,
hence at least 3 emitted points. -/
noncomputable def Axes.add_line (cfg : AxesConfig) (cloud : PointCloud)
    (start stop : Vec3) (color : Color) : PointCloud :=
  let distance := (stop.sub start).length
  let num_points := max (ratToUsize (distance * cfg.points_per_unit * 2)) 2
  (List.range (num_points + 1)).foldl (fun (cl : PointCloud) (i : ℕ) =>
    let t := (i : ℝ) / (num_points : ℝ)
    cl.add_point_with_color (start.lerp stop t) color) cloud

/-- Modelling `Axes::add_arrow_base` (octagon ring of 8 points). -/
noncomputable def Axes.add_arrow_base (cloud : PointCloud)
    (center perp1 perp2 : Vec3) (radius : ℝ) (color : Color) : PointCloud :=
  (List.range 8).foldl (fun (cl : PointCloud) (i : ℕ) =>
    let angle := 2 * Real.pi * (i : ℝ) / 8
    let position := (center.add (perp1.smul (radius * Real.cos angle))).add
      (perp2.smul (radius * Real.sin angle))
    cl.add_point_with_color position color) cloud

/-- Modelling `Axes::add_axis_arrow`. -/
noncomputable def Axes.add_axis_arrow (cfg : AxesConfig) (cloud : PointCloud)
    (direction : Vec3) (color : Color) : PointCloud :=
  let tip_pos := direction.smul cfg.length
  let base_pos := tip_pos.sub (direction.smul cfg.arrow_size)
  let perps := Axes.get_perpendicular_dirs direction
  let wing_length := cfg.arrow_size * (1 / 2)
  let wing1 := base_pos.add (perps.1.smul wing_length)
  let wing2 := base_pos.sub (perps.1.smul wing_length)
  let wing3 := base_pos.add (perps.2.smul wing_length)
  let wing4 := base_pos.sub (perps.2.smul wing_length)
  let cloud := Axes.add_line cfg cloud tip_pos wing1 color
  let cloud := Axes.add_line cfg cloud tip_pos wing2 color
  let cloud := Axes.add_line cfg cloud tip_pos wing3 color
  let cloud := Axes.add_line cfg cloud tip_pos wing4 color
  Axes.add_arrow_base cloud base_pos perps.1 perps.2 (wing_length * (7 / 10)) color

/-- Modelling `Axes::add_x_label` (two crossed strokes). -/
noncomputable def Axes.add_x_label (cfg : AxesConfig) (cloud : PointCloud)
    (center : Vec3) (size : ℝ) (color : Color) : PointCloud :=
  let half_size := size * (1 / 2)
  let p1 := center.add ⟨-half_size, -half_size, 0⟩
  let p2 := center.add ⟨half_size, half_size, 0⟩
  let cloud := Axes.add_line cfg cloud p1 p2 color
  let p3 := center.add ⟨-half_size, half_size, 0⟩
  let p4 := center.add ⟨half_size, -half_size, 0⟩
  Axes.add_line cfg cloud p3 p4 color

/-- Modelling `Axes::add_y_label` (three strokes). -/
noncomputable def Axes.add_y_label (cfg : AxesConfig) (cloud : PointCloud)
    (center : Vec3) (size : ℝ) (color : Color) : PointCloud :=
  let half_size := size * (1 / 2)
  let p1 := center.add ⟨0, -half_size, 0⟩
  let p_mid := center
  let cloud := Axes.add_line cfg cloud p1 p_mid color
  let p2 := center.add ⟨-half_size, half_size, 0⟩
  let cloud := Axes.add_line cfg cloud p2 p_mid color
  let p3 := center.add ⟨half_size, half_size, 0⟩
  Axes.add_line cfg cloud p3 p_mid color

/-- Modelling `Axes::add_z_label` (three strokes). -/
noncomputable def Axes.add_z_label (cfg : AxesConfig) (cloud : PointCloud)
    (center : Vec3) (size : ℝ) (color : Color) : PointCloud :=
  let half_size := size * (1 / 2)
  let p1 := center.add ⟨-half_size, half_size, 0⟩
  let p2 := center.add ⟨half_size, half_size, 0⟩
  let cloud := Axes.add_line cfg cloud p1 p2 color
  let p3 := center.add ⟨-half_size, -half_size, 0⟩
  let cloud := Axes.add_line cfg cloud p2 p3 color
  let p4 := center.add ⟨half_size, -half_size, 0⟩
  Axes.add_line cfg cloud p3 p4 color

/-- Modelling `Axes::add_axis_labels`. -/
noncomputable def Axes.add_axis_labels (cfg : AxesConfig) (cloud : PointCloud) :
    PointCloud :=
  let label_offset := cfg.length + cfg.arrow_size + 3 / 10
  let label_size : ℝ := 1 / 5
  let cloud := Axes.add_x_label cfg cloud (Vec3.unitX.smul label_offset) label_size cfg.x_color
  let cloud := Axes.add_y_label cfg cloud (Vec3.unitY.smul label_offset) label_size cfg.y_color
  Axes.add_z_label cfg cloud (Vec3.unitZ.smul label_offset) label_size cfg.z_color

/-- Modelling `Axes::generate_points`. -/
noncomputable def Axes.generate_points (cfg : AxesConfig) : PointCloud :=
  let cloud := PointCloud.new
  let cloud := Axes.add_axis_line cfg cloud Vec3.unitX cfg.x_color
  let cloud := Axes.add_axis_line cfg cloud Vec3.unitY cfg.y_color
  let cloud := Axes.add_axis_line cfg cloud Vec3.unitZ cfg.z_color
  let cloud :=
    if cfg.show_ticks then
      let cloud := Axes.add_axis_ticks cfg cloud Vec3.unitX cfg.x_color
      let cloud := Axes.add_axis_ticks cfg cloud Vec3.unitY cfg.y_color
      Axes.add_axis_ticks cfg cloud Vec3.unitZ cfg.z_color
    else cloud
  let cloud :=
    if cfg.show_arrows then
      let cloud := Axes.add_axis_arrow cfg cloud Vec3.unitX cfg.x_color
      let cloud := Axes.add_axis_arrow cfg cloud Vec3.unitY cfg.y_color
      Axes.add_axis_arrow cfg cloud Vec3.unitZ cfg.z_color
    else cloud
  if cfg.show_labels then Axes.add_axis_labels cfg cloud else cloud

/-- Character sets, modelling `CharacterSet`. -/
inductive CharacterSet where
  | standard
  | blocks
  | dots
  | custom (cs : List Char)

/-- Modelling `CharacterSet::chars` (lightest to darkest). -/
def CharacterSet.chars : CharacterSet → List Char
  | .standard => [' ', '.', ':', '-', '=', '+', '*', '#', '%', '@']
  | .blocks => [' ', '░', '▒', '▓', '█']
  | .dots => [' ', '.', '·', '•', '○', '●']
  | .custom cs => cs

/-- ASCII renderer state, modelling `AsciiRenderer`. -/
structure AsciiRenderer where
  width : ℕ
  height : ℕ
  character_set : CharacterSet
  background_char : Char
  use_color : Bool
  projector : Projector
  depth_buffer : DepthBuffer
  axes_config : Option AxesConfig

/-- Modelling `AsciiRenderer::new` (the zero-dimension rejection lives in
the `Projector`/`DepthBuffer` constructors; here the fields are built
directly). -/
def AsciiRenderer.new (width height : ℕ) : AsciiRenderer :=
  ⟨width, height, .standard, ' ', false, ⟨width, height⟩,
    DepthBuffer.new width height, none⟩

/-- The visible-character index computed inside
`AsciiRenderer::depth_to_char`: clamp the depth to the practical-far cutoff
`0.95`, normalize, invert (near is dense), scale by the number of visible
glyph steps, truncate, and clamp to the last visible index. -/
noncomputable def AsciiRenderer.depth_char_index (r : AsciiRenderer)
    (depth : ℝ) : ℕ :=
  let chars := r.character_set.chars
  let practical_far : ℝ := 95 / 100
  let clamped_depth := min (max depth 0) practical_far
  let normalized_depth := clamped_depth / practical_far
  let inverted_depth := 1 - normalized_depth
  let visible_chars := chars.drop 1
  let index := ratToUsize (inverted_depth * ((visible_chars.length - 1 : ℕ) : ℝ))
  min index (visible_chars.length - 1)

/-- Modelling `AsciiRenderer::depth_to_char`: on an empty character set
return a space, on a one-glyph set that glyph, and otherwise index into the
character set with its first (background) glyph excluded using
`depth_char_index`. -/
noncomputable def AsciiRenderer.depth_to_char (r : AsciiRenderer) (depth : ℝ) :
    Char :=
  let chars := r.character_set.chars
  if chars.isEmpty then ' '
  else if chars.length ≤ 1 then chars.getD 0 ' '
  else (chars.drop 1).getD (r.depth_char_index depth) ' '

/-- Modelling `AsciiRenderer::color_to_ansi` (256-color escape sequence as
a character list; the per-channel quantization `(c/255*5) as u8` is modelled
as natural floor division). -/
def AsciiRenderer.color_to_ansi (r : AsciiRenderer) (color : Color) :
    List Char :=
  if r.use_color = false then []
  else
    let cr := color.r * 5 / 255
    let cg := color.g * 5 / 255
    let cb := color.b * 5 / 255
    let ansi_code := 16 + 36 * cr + 6 * cg + cb
    ['\x1b', '[', '3', '8', ';', '5', ';'] ++ Nat.toDigits 10 ansi_code ++ ['m']

/-- Modelling `AsciiRenderer::reset_color`. -/
def AsciiRenderer.reset_color (r : AsciiRenderer) : List Char :=
  if r.use_color then ['\x1b', '[', '0', 'm'] else []

/-- Modelling `AsciiRenderer::buffer_to_string`: row-major traversal of the
character/color buffers over `0..height` and `0..width`, a newline after
each row, ANSI color wrapping of non-background glyphs when color is
enabled, and removal of the final newline. -/
def AsciiRenderer.buffer_to_string (r : AsciiRenderer)
    (char_buffer : List (List Char)) (color_buffer : List (List Color)) :
    List Char :=
  let result := (List.range r.height).foldl (fun res y =>
    let res := (List.range r.width).foldl (fun res x =>
      let ch := (char_buffer.getD y []).getD x ' '
      let color := (color_buffer.getD y []).getD x Color.white
      if r.use_color = true ∧ ch ≠ r.background_char then
        res ++ r.color_to_ansi color ++ [ch] ++ r.reset_color
      else res ++ [ch]) res
    res ++ ['\n']) []
  if result.getLast? = some '\n' then result.dropLast else result

/-- Rounding cast modelling `f32::round` followed by `as u32` (negative
values saturate to zero; the bounds checks at every call site ensure the
argument is non-negative). -/
noncomputable def roundToU32 (x : ℝ) : ℕ := (round x).toNat

/-- Modelling the back-to-front ordering used by both rasterizers:
`sort_by(|a, b| b.1.depth.partial_cmp(&a.1.depth))`, i.e. a stable sort by
descending depth. -/
noncomputable def sortByDepthDesc (l : List (Point3D × ScreenPoint)) :
    List (Point3D × ScreenPoint) :=
  List.insertionSort (fun a b => b.2.depth ≤ a.2.depth) l

/-- Modelling the rasterization loop body of `AsciiRenderer::render`: float
bounds check, round to integer cell, redundant integer bounds check, depth
test, then write glyph and color. -/
noncomputable def AsciiRenderer.rasterize_point (r : AsciiRenderer)
    (st : List (List Char) × List (List Color) × DepthBuffer)
    (pp : Point3D × ScreenPoint) :
    List (List Char) × List (List Color) × DepthBuffer :=
  let sp := pp.2
  if sp.x < 0 ∨ sp.y < 0 ∨ sp.x ≥ (r.width : ℝ) ∨ sp.y ≥ (r.height : ℝ) then st
  else
    let x := roundToU32 sp.x
    let y := roundToU32 sp.y
    if x ≥ r.width ∨ y ≥ r.height then st
    else
      let res := st.2.2.test_and_update x y sp.depth
      if res.1 then
        let ch := r.depth_to_char sp.depth
        (st.1.set y ((st.1.getD y []).set x ch),
         st.2.1.set y ((st.2.1.getD y []).set x pp.1.color),
         res.2)
      else (st.1, st.2.1, res.2)

/-- Modelling `AsciiRenderer::render` (the `Renderer` impl): merge axes
points when enabled, early-return the blank grid for an empty cloud, adjust
the aspect ratio for the 2:1 terminal glyph shape, project, early-return
when nothing is visible, then depth-sort and rasterize. -/
noncomputable def AsciiRenderer.render (r : AsciiRenderer)
    (points : PointCloud) (camera : Camera) :
    Except AltostratusError (List Char) :=
  let render_cloud :=
    match r.axes_config with
    | some cfg =>
        ((Axes.generate_points cfg).points).foldl
          (fun cl p => cl.add_point p) points
    | none => points
  let char_buffer :=
    List.replicate r.height (List.replicate r.width r.background_char)
  let color_buffer :=
    List.replicate r.height (List.replicate r.width Color.white)
  if render_cloud.is_empty then
    .ok (r.buffer_to_string char_buffer color_buffer)
  else
    let visual_aspect := (r.width : ℝ) / ((r.height : ℝ) * (1 / 2))
    match camera.set_aspect visual_aspect with
    | .error e => .error e
    | .ok render_camera =>
      let projected := r.projector.project_point_cloud render_cloud render_camera
      if projected.isEmpty then
        .ok (r.buffer_to_string char_buffer color_buffer)
      else
        let db := r.depth_buffer.clear
        let sorted_points := sortByDepthDesc projected
        let final := sorted_points.foldl r.rasterize_point
          (char_buffer, color_buffer, db)
        .ok (r.buffer_to_string final.1 final.2.1)

/-- Image buffer: `height` rows of `width` pixels, modelling `RgbImage`. -/
abbrev Image := List (List Color)

/-- Modelling `RgbImage::new` (zero-initialized, i.e. black pixels). -/
def RgbImage.mk_new (width height : ℕ) : Image :=
  List.replicate height (List.replicate width Color.black)

/-- Modelling `image.put_pixel` (all call sites bounds-check first; indices
beyond the buffer leave it unchanged). -/
def Image.put_pixel (img : Image) (x y : ℕ) (c : Color) : Image :=
  img.set y ((img.getD y []).set x c)

/-- Modelling the `for pixel in image.pixels_mut() { *pixel = bg }` fill
loop of `ImageRenderer::render`. -/
def Image.fill (img : Image) (c : Color) : Image :=
  img.map fun row => row.map fun _ => c

/-- Truncating cast modelling `as i32` on a float (round toward zero). -/
noncomputable def truncToI32 (x : ℝ) : ℤ := if 0 ≤ x then ⌊x⌋ else -⌊-x⌋

/-- Image renderer state, modelling `ImageRenderer`. -/
structure ImageRenderer where
  width : ℕ
  height : ℕ
  background_color : Color
  point_size : ℝ
  projector : Projector
  depth_buffer : DepthBuffer

/-- Modelling `ImageRenderer::new` (background black, point size 2). -/
def ImageRenderer.new (width height : ℕ) : ImageRenderer :=
  ⟨width, height, Color.black, 2, ⟨width, height⟩, DepthBuffer.new width height⟩

/-- The signed offsets `-k..=k` used by the square/circle drawing loops. -/
def offsetRange (k : ℤ) : List ℤ :=
  (List.range (2 * k.toNat + 1)).map fun i => (i : ℤ) - k

/-- Modelling `ImageRenderer::draw_point` (filled circle via a squared
distance test inside a bounding box of `ceil(radius)`). -/
noncomputable def ImageRenderer.draw_point (r : ImageRenderer) (img : Image)
    (x y size : ℝ) (color : Color) : Image :=
  let radius := max size 1
  let center_x := truncToI32 x
  let center_y := truncToI32 y
  let radius_int := ⌈radius⌉
  (offsetRange radius_int).foldl (fun img dy =>
    (offsetRange radius_int).foldl (fun img dx =>
      let pixel_x := center_x + dx
      let pixel_y := center_y + dy
      if pixel_x < 0 ∨ pixel_y < 0 ∨ pixel_x ≥ (r.width : ℤ) ∨
          pixel_y ≥ (r.height : ℤ) then img
      else
        let distance_sq := ((dx * dx + dy * dy : ℤ) : ℝ)
        if distance_sq ≤ radius * radius then
          img.put_pixel pixel_x.toNat pixel_y.toNat color
        else img) img) img

/-- Modelling `ImageRenderer::draw_point_square` (filled square). -/
noncomputable def ImageRenderer.draw_point_square (r : ImageRenderer)
    (img : Image) (x y size : ℝ) (color : Color) : Image :=
  let half_size := max size 1
  let center_x := truncToI32 x
  let center_y := truncToI32 y
  let half_size_int := ⌈half_size⌉
  (offsetRange half_size_int).foldl (fun img dy =>
    (offsetRange half_size_int).foldl (fun img dx =>
      let pixel_x := center_x + dx
      let pixel_y := center_y + dy
      if pixel_x < 0 ∨ pixel_y < 0 ∨ pixel_x ≥ (r.width : ℤ) ∨
          pixel_y ≥ (r.height : ℤ) then img
      else img.put_pixel pixel_x.toNat pixel_y.toNat color) img) img

/-- Modelling `ImageRenderer::draw_point_pixel` (single rounded pixel). -/
noncomputable def ImageRenderer.draw_point_pixel (r : ImageRenderer)
    (img : Image) (x y : ℝ) (color : Color) : Image :=
  let pixel_x := roundToU32 x
  let pixel_y := roundToU32 y
  if pixel_x < r.width ∧ pixel_y < r.height then
    img.put_pixel pixel_x pixel_y color
  else img

/-- Modelling the per-point drawing step of `ImageRenderer::render`:
pixel-coordinate clamp, depth test, then a size-selected primitive. -/
noncomputable def ImageRenderer.rasterize_point (r : ImageRenderer)
    (st : Image × DepthBuffer) (pp : Point3D × ScreenPoint) :
    Image × DepthBuffer :=
  let sp := pp.2
  let coords := sp.to_pixel_coords r.width r.height
  let res := st.2.test_and_update coords.1 coords.2 sp.depth
  if res.1 then
    if r.point_size ≤ 1 then
      (r.draw_point_pixel st.1 sp.x sp.y pp.1.color, res.2)
    else if r.point_size ≤ 3 then
      (r.draw_point_square st.1 sp.x sp.y r.point_size pp.1.color, res.2)
    else
      (r.draw_point st.1 sp.x sp.y r.point_size pp.1.color, res.2)
  else (st.1, res.2)

/-- Modelling `ImageRenderer::render` (the `Renderer` impl): early-return a
background-filled image for an empty cloud, adjust the aspect ratio to the
image dimensions, project, early-return background when nothing is visible,
then depth-sort and draw front-most points. -/
noncomputable def ImageRenderer.render (r : ImageRenderer)
    (points : PointCloud) (camera : Camera) :
    Except AltostratusError Image :=
  if points.is_empty then
    .ok ((RgbImage.mk_new r.width r.height).fill r.background_color)
  else
    let aspect := (r.width : ℝ) / (r.height : ℝ)
    match camera.set_aspect aspect with
    | .error e => .error e
    | .ok render_camera =>
      let projected := r.projector.project_point_cloud points render_camera
      if projected.isEmpty then
        .ok ((RgbImage.mk_new r.width r.height).fill r.background_color)
      else
        let img := (RgbImage.mk_new r.width r.height).fill r.background_color
        let db := r.depth_buffer.clear
        let sorted_points := sortByDepthDesc projected
        let final := sorted_points.foldl r.rasterize_point (img, db)
        .ok final.1

/-- 2D integer point, modelling `graphics::Point2D`. -/
structure Point2D where
  x : ℤ
  y : ℤ

/-- Sub-cell grid of a Braille glyph (4 rows of 2 columns), modelling
`graphics::BraillePixel`'s `data: [[bool; 2]; 4]` field. -/
abbrev BrailleData := Fin 4 → Fin 2 → Bool

/-- Modelling `BraillePixel::to_char`'s codepoint computation: one fixed
bit per active sub-cell, OR-ed with `0x28 << 8`. -/
def BraillePixel.to_char_code (d : BrailleData) : ℕ :=
  let u := 0
  let u := if d 0 0 then u ||| (1 <<< 0) else u
  let u := if d 1 0 then u ||| (1 <<< 1) else u
  let u := if d 2 0 then u ||| (1 <<< 2) else u
  let u := if d 0 1 then u ||| (1 <<< 3) else u
  let u := if d 1 1 then u ||| (1 <<< 4) else u
  let u := if d 2 1 then u ||| (1 <<< 5) else u
  let u := if d 3 0 then u ||| (1 <<< 6) else u
  let u := if d 3 1 then u ||| (1 <<< 7) else u
  u ||| (0x28 <<< 8)

/-- Modelling `BraillePixel::to_char` (`char::from_u32(..).unwrap()`;
`Char.ofNat` yields the actual character whenever the codepoint is a valid
scalar value, which the safety theorem establishes). -/
def BraillePixel.to_char (d : BrailleData) : Char :=
  Char.ofNat (BraillePixel.to_char_code d)

/-- Terminal screen state, modelling `graphics::Screen` (the `u16`
dimensions as naturals, the boolean sub-pixel grid as nested lists). -/
structure Screen where
  width : ℕ
  height : ℕ
  content : List (List Bool)

/-- Modelling `Screen::write`: both coordinates must be strictly between 0
and the corresponding dimension (the `x = 0` column and `y = 0` row are
excluded); otherwise the grid is untouched. -/
def Screen.write (s : Screen) (val : Bool) (point : Point2D) : Screen :=
  let x_in_bounds := 0 < point.x ∧ point.x < (s.width : ℤ)
  let y_in_bounds := 0 < point.y ∧ point.y < (s.height : ℤ)
  if x_in_bounds ∧ y_in_bounds then
    { s with content := (s.content.set point.y.toNat
        ((s.content.getD point.y.toNat []).set point.x.toNat val)) }
  else s

/-! ## Claim theorems -/

/-- C2: for every depth buffer (with its cells stored row-major, one per
pixel), out-of-bounds coordinates make `test_and_update` return `false`
without mutation; in-bounds coordinates succeed and overwrite the stored
cell exactly when the candidate depth is strictly smaller than the stored
one, and otherwise fail leaving the buffer unchanged.  The in-bounds cell
index is always inside the cell list, so no out-of-bounds access occurs. -/
theorem depth_buffer_test_and_update_spec (b : DepthBuffer) (x y : ℕ)
    (depth : ℝ) (hlen : b.depths.length = b.width * b.height) :
    ((x ≥ b.width ∨ y ≥ b.height) → b.test_and_update x y depth = (false, b)) ∧
    (x < b.width → y < b.height →
      (y * b.width + x < b.depths.length ∧
        (depth < b.depths.getD (y * b.width + x) 0 →
          b.test_and_update x y depth =
            (true, { b with depths := b.depths.set (y * b.width + x) depth })) ∧
        (¬ depth < b.depths.getD (y * b.width + x) 0 →
          b.test_and_update x y depth = (false, b)))) := by
  constructor
  · intro hob
    unfold DepthBuffer.test_and_update
    rw [if_pos hob]
  · intro hx hy
    have hidx : y * b.width + x < b.depths.length := by
      rw [hlen]
      calc y * b.width + x < (y + 1) * b.width := by nlinarith
        _ ≤ b.height * b.width := Nat.mul_le_mul_right b.width (by omega)
        _ = b.width * b.height := Nat.mul_comm _ _
    refine ⟨hidx, ?_, ?_⟩
    · intro hlt
      unfold DepthBuffer.test_and_update
      rw [if_neg (by omega), if_pos hlt]
    · intro hge
      unfold DepthBuffer.test_and_update
      rw [if_neg (by omega), if_neg hge]

/-- Witness for C2: a concrete 2-by-2 buffer, updated in bounds with a
nearer depth. -/
theorem depth_buffer_test_and_update_spec_witness :
    (DepthBuffer.new 2 2).test_and_update 0 0 (1 / 2) =
      (true, { DepthBuffer.new 2 2 with
        depths := (DepthBuffer.new 2 2).depths.set
          (0 * (DepthBuffer.new 2 2).width + 0) (1 / 2) }) := by
  have h := depth_buffer_test_and_update_spec (DepthBuffer.new 2 2) 0 0 (1 / 2)
    (by simp [DepthBuffer.new])
  exact ((h.2 (by norm_num [DepthBuffer.new]) (by norm_num [DepthBuffer.new])).2.1
    (by norm_num [DepthBuffer.new, List.getD, List.getElem?_replicate]))

/-- C10: `Screen::write` mutates a cell only when `0 < x < width` and
`0 < y < height` (both strict, so the `x = 0` column and `y = 0` row are
never written); any other coordinate, including negative ones, leaves the
grid entirely unchanged; and under the grid-shape invariant the written
indices are inside the grid, so no out-of-bounds access occurs. -/
theorem screen_write_spec (s : Screen) (val : Bool) (p : Point2D) :
    (¬ (0 < p.x ∧ p.x < (s.width : ℤ) ∧ 0 < p.y ∧ p.y < (s.height : ℤ)) →
      s.write val p = s) ∧
    ((0 < p.x ∧ p.x < (s.width : ℤ) ∧ 0 < p.y ∧ p.y < (s.height : ℤ)) →
      (s.write val p).width = s.width ∧ (s.write val p).height = s.height ∧
      (s.write val p).content = s.content.set p.y.toNat
        ((s.content.getD p.y.toNat []).set p.x.toNat val)) ∧
    (s.content.length = s.height →
      (∀ row ∈ s.content, row.length = s.width) →
      (0 < p.x ∧ p.x < (s.width : ℤ) ∧ 0 < p.y ∧ p.y < (s.height : ℤ)) →
      p.y.toNat < s.content.length ∧
        p.x.toNat < (s.content.getD p.y.toNat []).length) := by
  refine ⟨?_, ?_, ?_⟩
  · intro hnc
    unfold Screen.write
    rw [if_neg (by tauto)]
  · intro hc
    unfold Screen.write
    rw [if_pos (by tauto)]
    exact ⟨rfl, rfl, rfl⟩
  · intro hrows hcols hc
    have hy : p.y.toNat < s.content.length := by
      rw [hrows]; omega
    refine ⟨hy, ?_⟩
    have hrow : s.content.getD p.y.toNat [] = s.content[p.y.toNat] := by
      simp [List.getD, List.getElem?_eq_getElem hy]
    rw [hrow, hcols _ (List.getElem_mem hy)]
    omega

/-- Witness for C10: an in-bounds write on a concrete 4-by-4 screen. -/
theorem screen_write_spec_witness :
    (Screen.write ⟨4, 4, List.replicate 4 (List.replicate 4 false)⟩ true
        ⟨2, 1⟩).content =
      (List.replicate 4 (List.replicate 4 false)).set (1 : ℤ).toNat
        (((List.replicate 4 (List.replicate 4 false)).getD (1 : ℤ).toNat []).set
          (2 : ℤ).toNat true) :=
  ((screen_write_spec ⟨4, 4, List.replicate 4 (List.replicate 4 false)⟩ true
    ⟨2, 1⟩).2.1 (by norm_num)).2.2

/-- Proof helper (not part of the source model): fixed bit position of each
Braille sub-cell, matching the bit layout of `BraillePixel::to_char`. -/
def brailleBitIndex (i : Fin 4) (j : Fin 2) : ℕ :=
  match i, j with
  | 0, 0 => 0
  | 1, 0 => 1
  | 2, 0 => 2
  | 0, 1 => 3
  | 1, 1 => 4
  | 2, 1 => 5
  | 3, 0 => 6
  | 3, 1 => 7

/-- Proof helper (not part of the source model): recover a sub-cell grid
from a packed codepoint by reading the fixed bit positions. -/
def brailleDecode (n : ℕ) : BrailleData :=
  fun i j => n.testBit (brailleBitIndex i j)

set_option maxRecDepth 10000 in
/-- Decoding inverts the Braille packing (checked over all 256 grids). -/
theorem braille_decode_code (d : BrailleData) :
    brailleDecode (BraillePixel.to_char_code d) = d := by
  revert d
  decide

set_option maxRecDepth 10000 in
/-- The packed codepoint lies in `U+2800..U+28FF` and is a valid Unicode
scalar value (checked over all 256 grids). -/
theorem braille_code_range (d : BrailleData) :
    0x2800 ≤ BraillePixel.to_char_code d ∧
    BraillePixel.to_char_code d ≤ 0x28FF ∧
    (BraillePixel.to_char d).toNat = BraillePixel.to_char_code d := by
  revert d
  decide

/-- C9: `BraillePixel::to_char` always produces a codepoint in the Braille
block `U+2800..U+28FF` (a valid Unicode scalar value, so the source's
`unwrap` cannot panic — witnessed here by `Char.ofNat` reproducing the
codepoint exactly), the all-false grid maps to `U+2800`, and distinct
sub-grids map to distinct characters. -/
theorem braille_to_char_spec :
    (∀ d : BrailleData, 0x2800 ≤ BraillePixel.to_char_code d ∧
      BraillePixel.to_char_code d ≤ 0x28FF ∧
      (BraillePixel.to_char d).toNat = BraillePixel.to_char_code d) ∧
    BraillePixel.to_char_code (fun _ _ => false) = 0x2800 ∧
    Function.Injective BraillePixel.to_char := by
  refine ⟨braille_code_range, by decide, ?_⟩
  intro a b h
  have hc : BraillePixel.to_char_code a = BraillePixel.to_char_code b := by
    have ha := (braille_code_range a).2.2
    have hb := (braille_code_range b).2.2
    rw [← ha, ← hb, h]
  calc a = brailleDecode (BraillePixel.to_char_code a) :=
        (braille_decode_code a).symm
    _ = brailleDecode (BraillePixel.to_char_code b) := by rw [hc]
    _ = b := braille_decode_code b

/-- Witness for C9: the injectivity implication applied at two concrete
equal grids, and the range facts at a concrete grid. -/
theorem braille_to_char_spec_witness :
    (0x2800 ≤ BraillePixel.to_char_code (fun i j => i = 0 ∧ j = 0) ∧
      BraillePixel.to_char_code (fun i j => i = 0 ∧ j = 0) ≤ 0x28FF ∧
      (BraillePixel.to_char (fun i j => i = 0 ∧ j = 0)).toNat =
        BraillePixel.to_char_code (fun i j => i = 0 ∧ j = 0)) ∧
    BraillePixel.to_char_code (fun _ _ => false) = 0x2800 :=
  ⟨braille_to_char_spec.1 _, braille_to_char_spec.2.1⟩

/-- C7: with at least two glyphs, the visible-glyph index chosen by
`depth_to_char` never increases toward denser glyphs as depth grows within
`[0, 0.95]`; every depth at or beyond `0.95` selects index 0, the lightest
visible glyph; and the selected glyph always comes from the character set
with its first (background) glyph excluded. -/
theorem depth_to_char_spec (r : AsciiRenderer)
    (h2 : 2 ≤ r.character_set.chars.length) (d1 d2 : ℝ)
    (h0 : 0 ≤ d1) (h12 : d1 < d2) (h95 : d2 ≤ 95 / 100) :
    r.depth_char_index d2 ≤ r.depth_char_index d1 ∧
    (∀ d : ℝ, 95 / 100 ≤ d →
      r.depth_char_index d = 0 ∧
      r.depth_to_char d = (r.character_set.chars.drop 1).getD 0 ' ') ∧
    (∀ d : ℝ, r.depth_to_char d ∈ r.character_set.chars.drop 1) := by
  have hlen : (r.character_set.chars.drop 1).length =
      r.character_set.chars.length - 1 := by simp
  have hvis : 1 ≤ (r.character_set.chars.drop 1).length := by omega
  refine ⟨?_, ?_, ?_⟩
  · simp only [AsciiRenderer.depth_char_index, ratToUsize]
    have hclamp : min (max d1 0) (95 / 100 : ℝ) ≤ min (max d2 0) (95 / 100) := by
      have h12' : d1 ≤ d2 := h12.le
      gcongr
    have hdiv : min (max d1 0) (95 / 100 : ℝ) / (95 / 100) ≤
        min (max d2 0) (95 / 100) / (95 / 100) := by gcongr
    have hmul : (1 - min (max d2 0) (95 / 100 : ℝ) / (95 / 100)) *
          (((r.character_set.chars.drop 1).length - 1 : ℕ) : ℝ) ≤
        (1 - min (max d1 0) (95 / 100) / (95 / 100)) *
          (((r.character_set.chars.drop 1).length - 1 : ℕ) : ℝ) :=
      mul_le_mul_of_nonneg_right (by linarith) (Nat.cast_nonneg _)
    exact min_le_min (Nat.floor_le_floor hmul) le_rfl
  · intro d hd
    have hidx : r.depth_char_index d = 0 := by
      simp only [AsciiRenderer.depth_char_index, ratToUsize]
      have hmind : min (max d 0) (95 / 100 : ℝ) = 95 / 100 := by
        rw [max_eq_left (by linarith)]
        exact min_eq_right hd
      rw [hmind]
      norm_num
    refine ⟨hidx, ?_⟩
    simp only [AsciiRenderer.depth_to_char]
    rw [if_neg (by simp only [List.isEmpty_iff_length_eq_zero]; omega),
      if_neg (by omega), hidx]
  · intro d
    simp only [AsciiRenderer.depth_to_char]
    rw [if_neg (by simp only [List.isEmpty_iff_length_eq_zero]; omega),
      if_neg (by omega)]
    have hlt : r.depth_char_index d < (r.character_set.chars.drop 1).length := by
      have hmin := min_le_right
        (ratToUsize ((1 - min (max d 0) (95 / 100 : ℝ) / (95 / 100)) *
          (((r.character_set.chars.drop 1).length - 1 : ℕ) : ℝ)))
        ((r.character_set.chars.drop 1).length - 1)
      simp only [AsciiRenderer.depth_char_index]
      omega
    rw [List.getD_eq_getElem _ ' ' hlt]
    exact List.getElem_mem hlt

/-- Witness for C7: the standard 10-glyph set with depths 0 and 1/2. -/
theorem depth_to_char_spec_witness :
    (AsciiRenderer.new 10 10).depth_char_index (1 / 2) ≤
      (AsciiRenderer.new 10 10).depth_char_index 0 ∧
    (∀ d : ℝ, 95 / 100 ≤ d →
      (AsciiRenderer.new 10 10).depth_char_index d = 0 ∧
      (AsciiRenderer.new 10 10).depth_to_char d =
        ((AsciiRenderer.new 10 10).character_set.chars.drop 1).getD 0 ' ') ∧
    (∀ d : ℝ, (AsciiRenderer.new 10 10).depth_to_char d ∈
      (AsciiRenderer.new 10 10).character_set.chars.drop 1) :=
  depth_to_char_spec (AsciiRenderer.new 10 10) (by decide) 0 (1 / 2)
    (by norm_num) (by norm_num) (by norm_num)

/-- The clip-space position computed inside `Projector::project_point`
(`view_proj * world_pos_4d` with homogeneous `w = 1`). -/
noncomputable def clipPos (camera : Camera) (world_pos : Vec3) : Vec4 :=
  camera.view_projection_matrix.mulVec4 ⟨world_pos.x, world_pos.y, world_pos.z, 1⟩

/-- The normalized device coordinate `ndc_x` of `Projector::project_point`. -/
noncomputable def ndcX (camera : Camera) (world_pos : Vec3) : ℝ :=
  (clipPos camera world_pos).x / (clipPos camera world_pos).w

/-- The normalized device coordinate `ndc_y` of `Projector::project_point`. -/
noncomputable def ndcY (camera : Camera) (world_pos : Vec3) : ℝ :=
  (clipPos camera world_pos).y / (clipPos camera world_pos).w

/-- The normalized device coordinate `ndc_z` of `Projector::project_point`. -/
noncomputable def ndcZ (camera : Camera) (world_pos : Vec3) : ℝ :=
  (clipPos camera world_pos).z / (clipPos camera world_pos).w

/-- C1: `project_point` returns `none` exactly when the homogeneous `w`
after multiplying by the view-projection matrix is `≤ 0`, or when `ndc_x`
or `ndc_y` leaves `[-1, 1]`, or `ndc_z` leaves `[0, 1]`; otherwise it
returns exactly the screen point with `screen_x = (ndc_x+1)/2 * width`,
`screen_y = (1-ndc_y)/2 * height` and depth `ndc_z`. -/
theorem project_point_spec (p : Projector) (world_pos : Vec3) (camera : Camera) :
    (p.project_point world_pos camera = none ↔
      (clipPos camera world_pos).w ≤ 0 ∨
      ndcX camera world_pos < -1 ∨ ndcX camera world_pos > 1 ∨
      ndcY camera world_pos < -1 ∨ ndcY camera world_pos > 1 ∨
      ndcZ camera world_pos < 0 ∨ ndcZ camera world_pos > 1) ∧
    (∀ sp : ScreenPoint, p.project_point world_pos camera = some sp ↔
      (0 < (clipPos camera world_pos).w ∧
       -1 ≤ ndcX camera world_pos ∧ ndcX camera world_pos ≤ 1 ∧
       -1 ≤ ndcY camera world_pos ∧ ndcY camera world_pos ≤ 1 ∧
       0 ≤ ndcZ camera world_pos ∧ ndcZ camera world_pos ≤ 1 ∧
       sp = ⟨(ndcX camera world_pos + 1) / 2 * (p.viewport_width : ℝ),
             (1 - ndcY camera world_pos) / 2 * (p.viewport_height : ℝ),
             ndcZ camera world_pos⟩)) := by
  have hpp : p.project_point world_pos camera =
      (if (clipPos camera world_pos).w ≤ 0 then none
       else if ndcX camera world_pos < -1 ∨ ndcX camera world_pos > 1 ∨
           ndcY camera world_pos < -1 ∨ ndcY camera world_pos > 1 ∨
           ndcZ camera world_pos < 0 ∨ ndcZ camera world_pos > 1 then none
       else some ⟨(ndcX camera world_pos + 1) * (1 / 2) * (p.viewport_width : ℝ),
                  (1 - ndcY camera world_pos) * (1 / 2) * (p.viewport_height : ℝ),
                  ndcZ camera world_pos⟩) := rfl
  rw [hpp]
  by_cases hw : (clipPos camera world_pos).w ≤ 0
  · rw [if_pos hw]
    refine ⟨⟨fun _ => Or.inl hw, fun _ => rfl⟩, fun sp => ⟨?_, ?_⟩⟩
    · intro h
      exact absurd h (by simp)
    · rintro ⟨h0, -⟩
      exact absurd hw (by linarith)
  · by_cases hr : ndcX camera world_pos < -1 ∨ ndcX camera world_pos > 1 ∨
        ndcY camera world_pos < -1 ∨ ndcY camera world_pos > 1 ∨
        ndcZ camera world_pos < 0 ∨ ndcZ camera world_pos > 1
    · rw [if_neg hw, if_pos hr]
      refine ⟨⟨fun _ => Or.inr hr, fun _ => rfl⟩, fun sp => ⟨?_, ?_⟩⟩
      · intro h
        exact absurd h (by simp)
      · rintro ⟨h0, hx1, hx2, hy1, hy2, hz1, hz2, -⟩
        rcases hr with h | h | h | h | h | h <;> linarith
    · rw [if_neg hw, if_neg hr]
      push_neg at hr
      obtain ⟨hx1, hx2, hy1, hy2, hz1, hz2⟩ := hr
      refine ⟨⟨fun h => absurd h (by simp), fun h => ?_⟩, fun sp => ⟨?_, ?_⟩⟩
      · rcases h with h | h | h | h | h | h | h
        · exact absurd h hw
        all_goals linarith
      · intro h
        have hsp : sp = ⟨(ndcX camera world_pos + 1) * (1 / 2) * (p.viewport_width : ℝ),
            (1 - ndcY camera world_pos) * (1 / 2) * (p.viewport_height : ℝ),
            ndcZ camera world_pos⟩ := (Option.some.injEq _ _ ▸ h).symm
        refine ⟨not_le.mp hw, by linarith, by linarith, by linarith, by linarith,
          by linarith, by linarith, ?_⟩
        rw [hsp]
        simp only [ScreenPoint.mk.injEq]
        refine ⟨by ring, by ring, trivial⟩
      · rintro ⟨-, -, -, -, -, -, -, hsp⟩
        rw [hsp]
        simp only [Option.some.injEq, ScreenPoint.mk.injEq]
        refine ⟨by ring, by ring, trivial⟩

/-- The squared norm is non-negative. -/
theorem Vec3.dot_self_nonneg (a : Vec3) : 0 ≤ a.dot a := by
  unfold Vec3.dot
  nlinarith [mul_self_nonneg a.x, mul_self_nonneg a.y, mul_self_nonneg a.z]

/-- Lengths are non-negative. -/
theorem Vec3.length_nonneg (a : Vec3) : 0 ≤ a.length := Real.sqrt_nonneg _

/-- A vector has length zero exactly when all components vanish. -/
theorem Vec3.length_eq_zero (a : Vec3) :
    a.length = 0 ↔ a.x = 0 ∧ a.y = 0 ∧ a.z = 0 := by
  unfold Vec3.length
  rw [Real.sqrt_eq_zero (a.dot_self_nonneg)]
  unfold Vec3.dot
  constructor
  · intro h
    refine ⟨?_, ?_, ?_⟩ <;>
      [skip; skip; skip] <;>
      nlinarith [mul_self_nonneg a.x, mul_self_nonneg a.y, mul_self_nonneg a.z,
        mul_self_eq_zero.mpr (rfl : (0:ℝ) = 0)]
  · rintro ⟨hx, hy, hz⟩
    rw [hx, hy, hz]
    ring

/-- Scaling a vector scales its length by the absolute factor. -/
theorem Vec3.length_smul (a : Vec3) (c : ℝ) :
    (a.smul c).length = |c| * a.length := by
  unfold Vec3.length Vec3.smul Vec3.dot
  have h : a.x * c * (a.x * c) + a.y * c * (a.y * c) + a.z * c * (a.z * c) =
      c ^ 2 * (a.x * a.x + a.y * a.y + a.z * a.z) := by ring
  simp only [h]
  rw [Real.sqrt_mul (sq_nonneg c), Real.sqrt_sq_eq_abs]

/-- Normalization is scaling by the reciprocal length. -/
theorem Vec3.normalize_eq_smul (a : Vec3) :
    a.normalize = a.smul (1 / a.length) := by
  unfold Vec3.normalize Vec3.smul
  simp [div_eq_mul_inv]

/-- A vector with a nonzero component normalizes to unit length. -/
theorem Vec3.length_normalize (a : Vec3)
    (h : ¬ (a.x = 0 ∧ a.y = 0 ∧ a.z = 0)) : a.normalize.length = 1 := by
  have hpos : 0 < a.length :=
    lt_of_le_of_ne a.length_nonneg (fun h0 => h (a.length_eq_zero.mp h0.symm))
  rw [a.normalize_eq_smul, a.length_smul, abs_of_pos (by positivity)]
  field_simp

/-- Core success facts about `Camera::zoom`: the target is untouched, the
factor was positive, the guard passed, and the new distance is the old
distance divided by the factor. -/
theorem zoom_ok_facts (c : Camera) (factor : ℝ) (c' : Camera)
    (h : c.zoom factor = .ok c') :
    c'.target = c.target ∧ 0 < factor ∧
    ¬ c.distance_to_target / factor < 1 / 1000 ∧
    c'.distance_to_target = c.distance_to_target / factor := by
  have hz : c.zoom factor =
      (if factor ≤ 0 then .error .invalidParameter
       else if (c.target.sub c.pos).length / factor < 1 / 1000 then
         .error .invalidParameter
       else .ok { c with pos := (c.target.sub
         (((c.target.sub c.pos).normalize).smul
           ((c.target.sub c.pos).length / factor))) }) := rfl
  rw [hz] at h
  split_ifs at h with hf hnd
  case _ =>
    have hc' : c' = { c with pos := (c.target.sub
        (((c.target.sub c.pos).normalize).smul
          ((c.target.sub c.pos).length / factor))) } := by
      exact (Except.ok.inj h).symm
    have hfac : 0 < factor := not_le.mp hf
    have hndist : ¬ c.distance_to_target / factor < 1 / 1000 := hnd
    have hdistpos : 0 < (c.target.sub c.pos).length / factor := by
      by_contra hle
      push_neg at hle
      exact hnd (by linarith)
    have hdir : ¬ ((c.target.sub c.pos).x = 0 ∧ (c.target.sub c.pos).y = 0 ∧
        (c.target.sub c.pos).z = 0) := by
      intro hall
      have h0 : (c.target.sub c.pos).length = 0 :=
        (c.target.sub c.pos).length_eq_zero.mpr hall
      rw [h0] at hdistpos
      simp at hdistpos
    refine ⟨by rw [hc'], hfac, hndist, ?_⟩
    rw [hc']
    show (c.target.sub ((c.target.sub (((c.target.sub c.pos).normalize).smul
      ((c.target.sub c.pos).length / factor))))).length = _
    have hcancel : ∀ a b : Vec3, a.sub (a.sub b) = b := by
      intro a b
      unfold Vec3.sub
      congr 1 <;> ring
    rw [hcancel]
    rw [Vec3.length_smul, Vec3.length_normalize _ hdir,
      abs_of_pos hdistpos]
    unfold Camera.distance_to_target
    ring

/-- C3: for a camera whose position differs from its target, a successful
`zoom` with factor above 1 strictly decreases the distance to the target
and a successful zoom with factor below 1 strictly increases it; zooming by
a factor and then by its reciprocal restores the distance exactly (hence
within any floating tolerance); and `zoom` fails with `InvalidParameter`
exactly when the factor is non-positive or the resulting distance
`distance / factor` would fall below the `0.001` minimum. -/
theorem camera_zoom_spec (c : Camera) (factor : ℝ) (hpt : c.pos ≠ c.target) :
    (∀ c', 1 < factor → c.zoom factor = .ok c' →
      c'.distance_to_target < c.distance_to_target) ∧
    (∀ c', 0 < factor → factor < 1 → c.zoom factor = .ok c' →
      c.distance_to_target < c'.distance_to_target) ∧
    (∀ c1 c2, c.zoom factor = .ok c1 → c1.zoom (1 / factor) = .ok c2 →
      c2.distance_to_target = c.distance_to_target) ∧
    (c.zoom factor = .error .invalidParameter ↔
      factor ≤ 0 ∨ c.distance_to_target / factor < 1 / 1000) := by
  have hdistpos : ∀ c', c.zoom factor = .ok c' → 0 < c.distance_to_target := by
    intro c' hok
    obtain ⟨-, hfac, hnd, -⟩ := zoom_ok_facts c factor c' hok
    by_contra hle
    push_neg at hle
    have : c.distance_to_target / factor ≤ 0 :=
      div_nonpos_of_nonpos_of_nonneg hle hfac.le
    exact hnd (by linarith)
  refine ⟨?_, ?_, ?_, ?_⟩
  · intro c' hf1 hok
    obtain ⟨-, hfac, -, hdist⟩ := zoom_ok_facts c factor c' hok
    rw [hdist]
    exact div_lt_self (hdistpos c' hok) hf1
  · intro c' hf0 hf1 hok
    obtain ⟨-, -, -, hdist⟩ := zoom_ok_facts c factor c' hok
    rw [hdist, lt_div_iff hf0]
    nlinarith [hdistpos c' hok]
  · intro c1 c2 hok1 hok2
    obtain ⟨-, hfac, -, hdist1⟩ := zoom_ok_facts c factor c1 hok1
    obtain ⟨-, -, -, hdist2⟩ := zoom_ok_facts c1 (1 / factor) c2 hok2
    rw [hdist2, hdist1]
    field_simp
  · have hz : c.zoom factor =
        (if factor ≤ 0 then .error .invalidParameter
         else if (c.target.sub c.pos).length / factor < 1 / 1000 then
           .error .invalidParameter
         else .ok { c with pos := (c.target.sub
           (((c.target.sub c.pos).normalize).smul
             ((c.target.sub c.pos).length / factor))) }) := rfl
    rw [hz]
    split_ifs with hf hnd
    · exact iff_of_true rfl (Or.inl hf)
    · exact iff_of_true rfl (Or.inr hnd)
    · refine iff_of_false (by simp) ?_
      rintro (h | h)
      · exact hf h
      · exact hnd h

/-- Witness for C3: a non-positive factor fails on the default camera. -/
theorem camera_zoom_spec_witness :
    Camera.new.zoom (-1) = .error .invalidParameter :=
  (camera_zoom_spec Camera.new (-1)
    (by
      intro hEq
      have h5 := congrArg Vec3.z hEq
      simp [Camera.new, Vec3.zero] at h5)).2.2.2.mpr (Or.inl (by norm_num))

/-- C4 counterexample: the box from `(0,0,0)` to `(1,1,0)` has zero volume
(its z-extent is zero), yet `frame_bounding_box` succeeds, because the code
only rejects a non-positive MAXIMUM extent.  This refutes the claim that
the call fails exactly on zero-volume boxes. -/
theorem frame_bounding_box_flat_box_succeeds :
    (((⟨1, 1, 0⟩ : Vec3).x - (⟨0, 0, 0⟩ : Vec3).x) *
     ((⟨1, 1, 0⟩ : Vec3).y - (⟨0, 0, 0⟩ : Vec3).y) *
     ((⟨1, 1, 0⟩ : Vec3).z - (⟨0, 0, 0⟩ : Vec3).z) = 0) ∧
    ∃ c', Camera.new.frame_bounding_box ⟨0, 0, 0⟩ ⟨1, 1, 0⟩ = .ok c' := by
  constructor
  · norm_num
  · have hfb : Camera.new.frame_bounding_box ⟨0, 0, 0⟩ ⟨1, 1, 0⟩ =
        (if max (max ((⟨1, 1, 0⟩ : Vec3).x - (⟨0, 0, 0⟩ : Vec3).x)
              ((⟨1, 1, 0⟩ : Vec3).y - (⟨0, 0, 0⟩ : Vec3).y))
            ((⟨1, 1, 0⟩ : Vec3).z - (⟨0, 0, 0⟩ : Vec3).z) ≤ 0 then
          .error .invalidParameter
         else .ok { Camera.new with
           target := ((⟨0, 0, 0⟩ : Vec3).add ⟨1, 1, 0⟩).smul (1 / 2),
           pos := ((((⟨0, 0, 0⟩ : Vec3).add ⟨1, 1, 0⟩).smul (1 / 2)).add
             (((Camera.new.pos.sub Camera.new.target).normalize).smul
               ((max (max ((⟨1, 1, 0⟩ : Vec3).x - (⟨0, 0, 0⟩ : Vec3).x)
                   ((⟨1, 1, 0⟩ : Vec3).y - (⟨0, 0, 0⟩ : Vec3).y))
                 ((⟨1, 1, 0⟩ : Vec3).z - (⟨0, 0, 0⟩ : Vec3).z) * (1 / 2) /
                   Real.tan (Camera.new.fov * (1 / 2)) +
                 max (max ((⟨1, 1, 0⟩ : Vec3).x - (⟨0, 0, 0⟩ : Vec3).x)
                   ((⟨1, 1, 0⟩ : Vec3).y - (⟨0, 0, 0⟩ : Vec3).y))
                 ((⟨1, 1, 0⟩ : Vec3).z - (⟨0, 0, 0⟩ : Vec3).z) * (1 / 10))))) }) :=
      rfl
    rw [hfb, if_neg (by norm_num)]
    exact ⟨_, rfl⟩

/-- C4 (amended): `frame_bounding_box` fails with `InvalidParameter`
exactly when the box's maximum extent (the largest of the three per-axis
differences `max - min`) is non-positive; on success it places the target
at the box center, positions the camera along the previously existing view
direction at distance `(max_extent/2) / tan(fov/2)` plus 10% of the
maximum extent as padding, and changes no other camera fields. -/
theorem frame_bounding_box_spec (c : Camera) (lo hi : Vec3) :
    (c.frame_bounding_box lo hi = .error .invalidParameter ↔
      max (max (hi.x - lo.x) (hi.y - lo.y)) (hi.z - lo.z) ≤ 0) ∧
    (c.frame_bounding_box lo hi = .ok { c with
        target := (lo.add hi).smul (1 / 2),
        pos := (((lo.add hi).smul (1 / 2)).add
          (((c.pos.sub c.target).normalize).smul
            (max (max (hi.x - lo.x) (hi.y - lo.y)) (hi.z - lo.z) * (1 / 2) /
                Real.tan (c.fov * (1 / 2)) +
              max (max (hi.x - lo.x) (hi.y - lo.y)) (hi.z - lo.z) * (1 / 10)))) } ↔
      0 < max (max (hi.x - lo.x) (hi.y - lo.y)) (hi.z - lo.z)) := by
  have hfb : c.frame_bounding_box lo hi =
      (if max (max (hi.x - lo.x) (hi.y - lo.y)) (hi.z - lo.z) ≤ 0 then
        .error .invalidParameter
       else .ok { c with
        target := (lo.add hi).smul (1 / 2),
        pos := (((lo.add hi).smul (1 / 2)).add
          (((c.pos.sub c.target).normalize).smul
            (max (max (hi.x - lo.x) (hi.y - lo.y)) (hi.z - lo.z) * (1 / 2) /
                Real.tan (c.fov * (1 / 2)) +
              max (max (hi.x - lo.x) (hi.y - lo.y)) (hi.z - lo.z) * (1 / 10)))) }) :=
    rfl
  rw [hfb]
  by_cases hext : max (max (hi.x - lo.x) (hi.y - lo.y)) (hi.z - lo.z) ≤ 0
  · rw [if_pos hext]
    exact ⟨iff_of_true rfl hext, iff_of_false (by simp) (by linarith)⟩
  · rw [if_neg hext]
    exact ⟨iff_of_false (by simp) hext, iff_of_true rfl (not_le.mp hext)⟩

/-- Folding a one-point-appending step over an index list grows the cloud
by exactly the list length. -/
theorem length_foldl_push {α : Type} (g : PointCloud → α → PointCloud)
    (hg : ∀ cl i, (g cl i).points.length = cl.points.length + 1)
    (l : List α) (cloud : PointCloud) :
    (l.foldl g cloud).points.length = cloud.points.length + l.length := by
  induction l generalizing cloud with
  | nil => simp
  | cons a t ih =>
    simp only [List.foldl_cons, List.length_cons, ih, hg]
    omega

/-- `add_axis_line` emits exactly `floor(length * points_per_unit) + 1`
points (no lower bound). -/
theorem add_axis_line_length (cfg : AxesConfig) (cloud : PointCloud)
    (direction : Vec3) (col : Color) :
    (Axes.add_axis_line cfg cloud direction col).points.length =
      cloud.points.length + (ratToUsize (cfg.length * cfg.points_per_unit) + 1) := by
  simp only [Axes.add_axis_line]
  rw [length_foldl_push]
  · simp
  · intro cl i
    simp [PointCloud.add_point_with_color, PointCloud.add_point]

/-- A concrete configuration with a very short axis: default settings with
`length = 1/20`. -/
noncomputable def axesCfgTiny : AxesConfig := { AxesConfig.new with length := 1 / 20 }

/-- `axesCfgTiny` with ticks, arrows and labels disabled. -/
noncomputable def axesCfgTinyBare : AxesConfig :=
  { axesCfgTiny with show_ticks := false, show_arrows := false, show_labels := false }

/-- C5 counterexample: with `length = 1/20` (and the default 10 points per
unit) each main axis line is sampled with a single point — fewer than the
claimed two-point floor.  With ticks, arrows and labels disabled,
`generate_points` emits exactly 3 points in total, one per axis line. -/
theorem axes_axis_line_single_point :
    (Axes.add_axis_line axesCfgTiny PointCloud.new
        Vec3.unitX Color.red).points.length = 1 ∧
    (Axes.generate_points axesCfgTinyBare).points.length = 3 := by
  have hprod : ∀ cfg : AxesConfig, cfg.length = 1 / 20 →
      cfg.points_per_unit = 10 →
      ratToUsize (cfg.length * cfg.points_per_unit) = 0 := by
    intro cfg h1 h2
    rw [h1, h2]
    unfold ratToUsize
    rw [Nat.floor_eq_zero]
    norm_num
  have h1 : ratToUsize (axesCfgTiny.length * axesCfgTiny.points_per_unit) = 0 :=
    hprod _ (by simp [axesCfgTiny]) (by simp [axesCfgTiny, AxesConfig.new])
  have h2 : ratToUsize (axesCfgTinyBare.length * axesCfgTinyBare.points_per_unit) = 0 :=
    hprod _ (by simp [axesCfgTinyBare, axesCfgTiny])
      (by simp [axesCfgTinyBare, axesCfgTiny, AxesConfig.new])
  constructor
  · rw [add_axis_line_length, h1]
    simp [PointCloud.new]
  · simp only [Axes.generate_points]
    rw [if_neg (by simp [axesCfgTinyBare]), if_neg (by simp [axesCfgTinyBare]),
      if_neg (by simp [axesCfgTinyBare])]
    rw [add_axis_line_length, add_axis_line_length, add_axis_line_length, h2]
    simp [PointCloud.new]

/-- C5 (amended): every line segment emitted through `add_line` (arrowhead
strokes and label strokes) is sampled with at least 2 points, and so is
every tick stroke; but a main axis line emitted by `add_axis_line` is
sampled with exactly `floor(length*points_per_unit) + 1` points, with no
two-point floor, so it degenerates to a single point when
`length * points_per_unit < 1`. -/
theorem axes_line_sampling_spec (cfg : AxesConfig) (cloud : PointCloud)
    (a b center direction : Vec3) (color : Color) :
    cloud.points.length + 2 ≤ (Axes.add_line cfg cloud a b color).points.length ∧
    cloud.points.length + 2 ≤
      (Axes.add_tick_mark cfg cloud center direction color).points.length ∧
    (Axes.add_axis_line cfg cloud direction color).points.length =
      cloud.points.length + (ratToUsize (cfg.length * cfg.points_per_unit) + 1) := by
  refine ⟨?_, ?_, add_axis_line_length cfg cloud direction color⟩
  · simp only [Axes.add_line]
    rw [length_foldl_push]
    · have : 2 ≤ max (ratToUsize ((b.sub a).length * cfg.points_per_unit * 2)) 2 :=
        le_max_right _ _
      simp only [List.length_range]
      omega
    · intro cl i
      simp [PointCloud.add_point_with_color, PointCloud.add_point]
  · simp only [Axes.add_tick_mark]
    rw [length_foldl_push]
    · have : 3 ≤ max (ratToUsize (cfg.tick_length * cfg.points_per_unit * 2)) 3 :=
        le_max_right _ _
      simp only [List.length_range]
      omega
    · intro cl i
      simp [PointCloud.add_point_with_color, PointCloud.add_point]

/-- Folding a constant one-character append over `n` loop iterations
appends `n` copies. -/
theorem foldl_append_singleton (n : ℕ) (c : Char) (acc : List Char) :
    (List.range n).foldl (fun res _ => res ++ [c]) acc =
      acc ++ List.replicate n c := by
  induction n with
  | zero => simp
  | succ n ih =>
    rw [List.range_succ, List.foldl_append, ih, List.replicate_succ']
    simp

/-- Folding a constant list append over `n` loop iterations appends the
flattening of `n` copies. -/
theorem foldl_append_const (n : ℕ) (L : List Char) (acc : List Char) :
    (List.range n).foldl (fun res _ => res ++ L) acc =
      acc ++ (List.replicate n L).flatten := by
  induction n with
  | zero => simp
  | succ n ih =>
    rw [List.range_succ, List.foldl_append, ih, List.replicate_succ']
    simp

/-- Two-element-or-more unfolding of `List.intercalate`. -/
theorem intercalate_cons₂ (sep a b : List Char) (l : List (List Char)) :
    List.intercalate sep (a :: b :: l) =
      a ++ sep ++ List.intercalate sep (b :: l) := by
  simp [List.intercalate, List.intersperse]

/-- Joining `h ≥ 1` newline-terminated copies of a row equals the
newline-joined rows followed by one trailing newline. -/
theorem join_replicate_row (h : ℕ) (hh : 1 ≤ h) (row : List Char) :
    (List.replicate h (row ++ ['\n'])).flatten =
      List.intercalate ['\n'] (List.replicate h row) ++ ['\n'] := by
  obtain ⟨n, rfl⟩ : ∃ n, h = n + 1 := ⟨h - 1, by omega⟩
  induction n with
  | zero => simp [List.intercalate, List.intersperse]
  | succ n ih =>
    have hstep : (List.replicate (n + 1 + 1) (row ++ ['\n'])).flatten =
        (row ++ ['\n']) ++ (List.replicate (n + 1) (row ++ ['\n'])).flatten := by
      simp [List.replicate_succ]
    rw [hstep, ih (by omega)]
    have hrep : List.replicate (n + 1 + 1) row =
        row :: row :: List.replicate n row := by
      simp [List.replicate_succ]
    rw [hrep, intercalate_cons₂]
    have hrep2 : (row :: List.replicate n row) = List.replicate (n + 1) row := by
      simp [List.replicate_succ]
    rw [hrep2]
    simp

/-- `buffer_to_string` on a background-filled character buffer yields the
newline-joined blank grid with no trailing newline. -/
theorem buffer_to_string_blank (r : AsciiRenderer)
    (colb : List (List Color)) (hh : 1 ≤ r.height) :
    r.buffer_to_string
      (List.replicate r.height (List.replicate r.width r.background_char))
      colb =
    List.intercalate ['\n']
      (List.replicate r.height (List.replicate r.width r.background_char)) := by
  simp only [AsciiRenderer.buffer_to_string]
  have hinner : ∀ res0 : List Char, ∀ y, y < r.height →
      (List.range r.width).foldl (fun res x =>
        let ch := ((List.replicate r.height
          (List.replicate r.width r.background_char)).getD y []).getD x ' '
        let color := (colb.getD y []).getD x Color.white
        if r.use_color = true ∧ ch ≠ r.background_char then
          res ++ r.color_to_ansi color ++ [ch] ++ r.reset_color
        else res ++ [ch]) res0 =
      res0 ++ List.replicate r.width r.background_char := by
    intro res0 y hy
    have hext : (List.range r.width).foldl (fun res x =>
        let ch := ((List.replicate r.height
          (List.replicate r.width r.background_char)).getD y []).getD x ' '
        let color := (colb.getD y []).getD x Color.white
        if r.use_color = true ∧ ch ≠ r.background_char then
          res ++ r.color_to_ansi color ++ [ch] ++ r.reset_color
        else res ++ [ch]) res0 =
        (List.range r.width).foldl
          (fun res _ => res ++ [r.background_char]) res0 := by
      apply List.foldl_ext
      intro acc x hx
      rw [List.mem_range] at hx
      simp [List.getD, List.getElem?_replicate, hx, hy]
    rw [hext, foldl_append_singleton]
  have hext2 : (List.range r.height).foldl (fun res y =>
      ((List.range r.width).foldl (fun res x =>
        let ch := ((List.replicate r.height
          (List.replicate r.width r.background_char)).getD y []).getD x ' '
        let color := (colb.getD y []).getD x Color.white
        if r.use_color = true ∧ ch ≠ r.background_char then
          res ++ r.color_to_ansi color ++ [ch] ++ r.reset_color
        else res ++ [ch]) res) ++ ['\n']) [] =
      (List.range r.height).foldl (fun res _ =>
        res ++ (List.replicate r.width r.background_char ++ ['\n'])) [] := by
    apply List.foldl_ext
    intro acc y hy
    rw [List.mem_range] at hy
    rw [hinner acc y hy, List.append_assoc]
  rw [hext2, foldl_append_const, join_replicate_row _ hh]
  rw [show ([] : List Char) ++ (List.intercalate ['\n'] (List.replicate r.height
    (List.replicate r.width r.background_char)) ++ ['\n']) =
    List.intercalate ['\n'] (List.replicate r.height
      (List.replicate r.width r.background_char)) ++ ['\n'] from by simp]
  rw [List.getLast?_concat, List.dropLast_concat]
  simp

/-- C6: on an empty point cloud with axes disabled, `AsciiRenderer::render`
succeeds and returns exactly `height` lines joined by newlines, with no
trailing newline, each line being `width` copies of the background
character. -/
theorem ascii_render_empty_spec (r : AsciiRenderer) (camera : Camera)
    (cloud : PointCloud) (hw : 1 ≤ r.width) (hh : 1 ≤ r.height)
    (hax : r.axes_config = none) (hc : cloud.points = []) :
    r.render cloud camera = .ok (List.intercalate ['\n']
      (List.replicate r.height (List.replicate r.width r.background_char))) := by
  simp only [AsciiRenderer.render, hax]
  rw [if_pos (by simp [PointCloud.is_empty, hc])]
  rw [buffer_to_string_blank _ _ hh]

/-- Witness for C6: a concrete 2-by-2 renderer and the default camera. -/
theorem ascii_render_empty_spec_witness :
    (AsciiRenderer.new 2 2).render PointCloud.new Camera.new =
      .ok (List.intercalate ['\n']
        (List.replicate (AsciiRenderer.new 2 2).height
          (List.replicate (AsciiRenderer.new 2 2).width
            (AsciiRenderer.new 2 2).background_char))) :=
  ascii_render_empty_spec (AsciiRenderer.new 2 2) Camera.new PointCloud.new
    (by decide) (by decide) rfl rfl

/-- C8: on an empty point cloud, `ImageRenderer::render` succeeds and
returns a `width`-by-`height` image in which every pixel equals the
configured background color. -/
theorem image_render_empty_spec (r : ImageRenderer) (camera : Camera)
    (cloud : PointCloud) (hw : 1 ≤ r.width) (hh : 1 ≤ r.height)
    (hc : cloud.points = []) :
    ∃ img : Image, r.render cloud camera = .ok img ∧
      img.length = r.height ∧
      ∀ row ∈ img, row.length = r.width ∧
        ∀ px ∈ row, px = r.background_color := by
  have himg : (RgbImage.mk_new r.width r.height).fill r.background_color =
      List.replicate r.height (List.replicate r.width r.background_color) := by
    simp [RgbImage.mk_new, Image.fill, List.map_replicate]
  refine ⟨(RgbImage.mk_new r.width r.height).fill r.background_color, ?_, ?_, ?_⟩
  · simp only [ImageRenderer.render]
    rw [if_pos (by simp [PointCloud.is_empty, hc])]
  · rw [himg]
    simp
  · intro row hrow
    rw [himg] at hrow
    have hr := List.eq_of_mem_replicate hrow
    subst hr
    refine ⟨by simp, ?_⟩
    intro px hpx
    exact List.eq_of_mem_replicate hpx

/-- Witness for C8: a concrete 2-by-2 image renderer. -/
theorem image_render_empty_spec_witness :
    ∃ img : Image, (ImageRenderer.new 2 2).render PointCloud.new Camera.new =
        .ok img ∧
      img.length = (ImageRenderer.new 2 2).height ∧
      ∀ row ∈ img, row.length = (ImageRenderer.new 2 2).width ∧
        ∀ px ∈ row, px = (ImageRenderer.new 2 2).background_color :=
  image_render_empty_spec (ImageRenderer.new 2 2) Camera.new PointCloud.new
    (by decide) (by decide) rfl
